import Mathlib

/-!
Shallow embedding of the snake game in `src/App.tsx`.

The game core is a React component; its state lives in `useState` hooks
(snake, dir, nextDir, food, score, best, running, paused, dead).  We embed
that state as a `GameState` structure and each handler / tick callback as a
pure state transformer.  Coordinates are integers (`Int`), since `wrap`
receives values like `-1` and `GRID` before wrapping.  The unbounded
rejection-sampling loop in `spawnFood` is embedded with an explicit random
stream `rng : Nat → Cell` and a fuel bound, returning `Option Cell`
(`none` models non-termination of the `while (true)` loop).
-/

namespace Snake

/-- `type Cell = { x: number; y: number }` (App.tsx line 3). -/
structure Cell where
  x : Int
  y : Int
deriving DecidableEq, Repr

/-- `type Dir = "up" | "down" | "left" | "right"` (App.tsx line 4). -/
inductive Dir where
  | up
  | down
  | left
  | right
deriving DecidableEq, Repr

/-- `const GRID = 18` (App.tsx line 6). -/
def GRID : Int := 18

/-- `same(a, b)` (App.tsx lines 19-21): coordinate-wise equality of cells. -/
def same (a b : Cell) : Bool :=
  a.x == b.x && a.y == b.y

/-- `isOpposite(a, b)` (App.tsx lines 23-30). -/
def isOpposite (a b : Dir) : Bool :=
  (a == Dir.up && b == Dir.down) ||
  (a == Dir.down && b == Dir.up) ||
  (a == Dir.left && b == Dir.right) ||
  (a == Dir.right && b == Dir.left)

/-- `dirVec(d)` (App.tsx lines 32-37): the unit vector of a direction. -/
def dirVec (d : Dir) : Cell :=
  match d with
  | Dir.up => ⟨0, -1⟩
  | Dir.down => ⟨0, 1⟩
  | Dir.left => ⟨-1, 0⟩
  | Dir.right => ⟨1, 0⟩

/-- `wrap(n)` (App.tsx lines 39-43). -/
def wrap (n : Int) : Int :=
  if n < 0 then GRID - 1
  else if n ≥ GRID then 0
  else n

/-- The component state: one field per `useState` hook (App.tsx lines 49-64),
restricted to the game core (refs to the canvas and interval handle carry no
game state). -/
structure GameState where
  snake : List Cell
  dir : Dir
  nextDir : Dir
  food : Cell
  score : Nat
  best : Nat
  running : Bool
  paused : Bool
  dead : Bool
deriving DecidableEq, Repr

/-- The initial hook values (App.tsx lines 49-64); `b` is the best score
loaded from `localStorage` (line 60). -/
def initState (b : Nat) : GameState :=
  { snake := [⟨9, 9⟩, ⟨8, 9⟩, ⟨7, 9⟩]
    dir := Dir.right
    nextDir := Dir.right
    food := ⟨4, 6⟩
    score := 0
    best := b
    running := false
    paused := false
    dead := false }

/-- `speed` (App.tsx lines 66-70): `9 + Math.floor(score / 5) * 2`. -/
def speed (score : Nat) : Nat :=
  9 + score / 5 * 2

/-- `tickMs` (App.tsx line 72): `Math.max(55, Math.floor(1000 / speed))`. -/
def tickMs (score : Nat) : Nat :=
  max 55 (1000 / speed score)

/-- `spawnFood(s)` (App.tsx lines 74-79): rejection sampling over the grid.
`rng i` is the i-th random cell drawn; `fuel` bounds the number of
iterations of the `while (true)` loop, `none` meaning the loop did not
terminate within the fuel. -/
def spawnFoodAux (rng : Nat → Cell) (s : List Cell) : Nat → Nat → Option Cell
  | _, 0 => none
  | i, fuel + 1 =>
      let f := rng i
      if s.any (fun c => same c f) then spawnFoodAux rng s (i + 1) fuel
      else some f

/-- `spawnFood(s)` entry point: start sampling at index 0. -/
def spawnFood (rng : Nat → Cell) (s : List Cell) (fuel : Nat) : Option Cell :=
  spawnFoodAux rng s 0 fuel

/-- `restart()` (App.tsx lines 88-105): reset every hook; `running := false`
shows the start screen.  The fresh food comes from `spawnFood` on the reset
snake. -/
def restart (rng : Nat → Cell) (fuel : Nat) (g : GameState) : Option GameState :=
  let startSnake : List Cell := [⟨9, 9⟩, ⟨8, 9⟩, ⟨7, 9⟩]
  match spawnFood rng startSnake fuel with
  | none => none
  | some f =>
      some { g with
        snake := startSnake
        dir := Dir.right
        nextDir := Dir.right
        food := f
        score := 0
        dead := false
        paused := false
        running := false }

/-- `startGame()` (App.tsx lines 107-111). -/
def startGame (g : GameState) : GameState :=
  { g with dead := false, paused := false, running := true }

/-- `togglePause()` (App.tsx lines 113-116): no-op unless running and alive. -/
def togglePause (g : GameState) : GameState :=
  if !g.running || g.dead then g
  else { g with paused := !g.paused }

/-- `die(finalScore)` (App.tsx lines 118-129), with `finalScore = score`
as at the call site (line 217): stop, set flags, update the best score if
beaten. -/
def die (g : GameState) : GameState :=
  { g with
    dead := true
    running := false
    paused := false
    best := if g.score > g.best then g.score else g.best }

/-- The direction-change guard shared by `onKey` (App.tsx lines 134-137) and
`onTouchEnd` (lines 171-181): `setNextDir((d) => (isOpposite(d, nd) ? d : nd))`.
The functional updater's argument `d` is the previous value of the
`nextDir` hook. -/
def setNextDirection (r : Dir) (g : GameState) : GameState :=
  { g with nextDir := if isOpposite g.nextDir r then g.nextDir else r }

/-- One wrapped step from a cell in a direction (App.tsx lines 207-213):
`{ x: wrap(head.x + v.x), y: wrap(head.y + v.y) }`. -/
def stepCell (c : Cell) (d : Dir) : Cell :=
  ⟨wrap (c.x + (dirVec d).x), wrap (c.y + (dirVec d).y)⟩

/-- The candidate next head of the tick callback (App.tsx lines 204-213):
`wrap(head + dirVec(nextDir))` per axis, where `head = prev[0]`.  Reachable
snakes are non-empty; the default cell only covers `prev[0]` on `[]`. -/
def nextHead (g : GameState) : Cell :=
  stepCell (g.snake.headD ⟨0, 0⟩) g.nextDir

/-- The self-collision scan of the tick callback (App.tsx line 216):
`prev.some((c) => same(c, next))` over the pre-move body, head included. -/
def hitsSelf (g : GameState) : Bool :=
  g.snake.any (fun c => same c (nextHead g))

/-- The `setInterval` tick callback (App.tsx lines 202-233): commit
`dir ← nextDir`, compute the wrapped candidate head, die on self collision
(snake unchanged), otherwise prepend the head and either grow (on food,
respawning it off the new snake) or drop the tail.  `none` means the food
respawn loop ran out of fuel. -/
def tick (rng : Nat → Cell) (fuel : Nat) (g : GameState) : Option GameState :=
  let d := g.nextDir
  let next := nextHead g
  if hitsSelf g then
    some (die { g with dir := d })
  else
    let newSnake := next :: g.snake
    if same next g.food then
      match spawnFood rng newSnake fuel with
      | none => none
      | some f =>
          some { g with dir := d, snake := newSnake, score := g.score + 1, food := f }
    else
      some { g with dir := d, snake := newSnake.dropLast }

/-- A cell of the 18×18 grid. -/
@[reducible]
def inGrid (c : Cell) : Prop :=
  0 ≤ c.x ∧ c.x < GRID ∧ 0 ≤ c.y ∧ c.y < GRID

/-- The food is off the snake (the at-rest food invariant), stated with the
same membership scan the code uses (`s.some((c) => same(c, f))`). -/
@[reducible]
def foodOk (g : GameState) : Prop :=
  g.snake.any (fun c => same c g.food) = false

/-- The lifecycle-flag constraint: dead implies neither running nor paused. -/
@[reducible]
def flagsOk (g : GameState) : Prop :=
  g.dead = true → g.running = false ∧ g.paused = false

/-! ## Helper lemmas -/

theorem same_iff {a b : Cell} : same a b = true ↔ a = b := by
  cases a; cases b
  simp [same, Cell.mk.injEq]

theorem same_false_iff {a b : Cell} : same a b = false ↔ a ≠ b := by
  rw [← Bool.not_eq_true, not_iff_not, same_iff]

theorem spawnFoodAux_off_snake {rng : Nat → Cell} {s : List Cell} {f : Cell} :
    ∀ {i fuel : Nat}, spawnFoodAux rng s i fuel = some f →
      s.any (fun c => same c f) = false := by
  intro i fuel
  induction fuel generalizing i with
  | zero => intro h; simp [spawnFoodAux] at h
  | succ fuel ih =>
      intro h
      simp only [spawnFoodAux] at h
      by_cases hc : s.any (fun c => same c (rng i)) = true
      · rw [if_pos hc] at h
        exact ih h
      · rw [if_neg hc] at h
        cases h
        exact Bool.eq_false_iff.mpr hc

theorem spawnFood_off_snake {rng : Nat → Cell} {s : List Cell} {fuel : Nat}
    {f : Cell} (h : spawnFood rng s fuel = some f) :
    s.any (fun c => same c f) = false :=
  spawnFoodAux_off_snake h

theorem dropLast_any_false {p : Cell → Bool} {l : List Cell}
    (h : l.any p = false) : l.dropLast.any p = false := by
  rw [List.any_eq_false] at h ⊢
  intro x hx
  exact h x (l.dropLast_sublist.subset hx)

/-! ## Claims -/

/-- C4: `wrap(n)` returns `GRID-1` for `n < 0`, `0` for `n ≥ GRID`, and `n`
otherwise; hence it is idempotent and its result lies in `[0, GRID)`. -/
theorem C4_wrap_spec (n : Int) :
    (n < 0 → wrap n = GRID - 1) ∧
    (n ≥ GRID → wrap n = 0) ∧
    (0 ≤ n → n < GRID → wrap n = n) ∧
    wrap (wrap n) = wrap n ∧ 0 ≤ wrap n ∧ wrap n < GRID := by
  simp only [wrap, GRID]
  split_ifs <;> omega

/-- C4 witness: the theorem applied at `n = -3` and `n = 25`. -/
theorem C4_wrap_spec_witness :
    wrap (-3) = GRID - 1 ∧ wrap 25 = 0 ∧ wrap (wrap (-3)) = wrap (-3) :=
  ⟨(C4_wrap_spec (-3)).1 (by decide), (C4_wrap_spec 25).2.1 (by decide),
    (C4_wrap_spec (-3)).2.2.2.1⟩

/-- C1 counterexample: with committed `dir = right` and queued
`nextDir = up`, the request `left` is opposite to the committed direction,
yet the guard (which reads the previous `nextDir`, not `dir`) lets it
through and `nextDir` changes to `left`. -/
theorem C1_counterexample :
    isOpposite
      ({ initState 0 with dir := Dir.right, nextDir := Dir.up } : GameState).dir
      Dir.left = true ∧
    ({ initState 0 with dir := Dir.right, nextDir := Dir.up } : GameState).nextDir
      ≠ Dir.left ∧
    (setNextDirection Dir.left
      { initState 0 with dir := Dir.right, nextDir := Dir.up }).nextDir
      = Dir.left := by
  decide

/-- C1 (amended): the direction-change guard compares the request against the
queued `nextDir`: whenever `isOpposite(nextDir, r)`, a request `r` leaves
`nextDir` unchanged. -/
theorem C1_no_reversal_guard (g : GameState) (r : Dir)
    (h : isOpposite g.nextDir r = true) :
    (setNextDirection r g).nextDir = g.nextDir := by
  simp [setNextDirection, h]

/-- C1 witness: the guard at the initial state (`nextDir = right`) with the
opposite request `left`. -/
theorem C1_no_reversal_guard_witness :
    (setNextDirection Dir.left (initState 0)).nextDir = (initState 0).nextDir :=
  C1_no_reversal_guard (initState 0) Dir.left (by decide)

/-- C2: on any tick whose wrapped candidate head lies on the pre-move snake,
the tick dies: the snake is unchanged, `dead` becomes true and `running`
becomes false.  In particular, for snake `[(0,9),(17,9),(16,9)]` moving left,
the head wraps to `(17,9)` (the second body cell), so the tick yields Dead
with the snake unchanged and `running = false`. -/
theorem C2_death_law :
    (∀ (rng : Nat → Cell) (fuel : Nat) (g : GameState), hitsSelf g = true →
      ∃ g', tick rng fuel g = some g' ∧
        g'.snake = g.snake ∧ g'.dead = true ∧ g'.running = false) ∧
    (∀ (rng : Nat → Cell) (fuel : Nat),
      nextHead { initState 0 with
          snake := [⟨0, 9⟩, ⟨17, 9⟩, ⟨16, 9⟩],
          dir := Dir.left, nextDir := Dir.left, running := true } = ⟨17, 9⟩ ∧
      ∃ g', tick rng fuel { initState 0 with
          snake := [⟨0, 9⟩, ⟨17, 9⟩, ⟨16, 9⟩],
          dir := Dir.left, nextDir := Dir.left, running := true } = some g' ∧
        g'.snake = [⟨0, 9⟩, ⟨17, 9⟩, ⟨16, 9⟩] ∧
        g'.dead = true ∧ g'.running = false) := by
  constructor
  · intro rng fuel g h
    refine ⟨die { g with dir := g.nextDir }, ?_, rfl, rfl, rfl⟩
    simp [tick, h]
  · intro rng fuel
    exact ⟨rfl, die { ({ initState 0 with
        snake := [⟨0, 9⟩, ⟨17, 9⟩, ⟨16, 9⟩],
        dir := Dir.left, nextDir := Dir.left, running := true } : GameState)
        with dir := Dir.left }, rfl, rfl, rfl, rfl⟩

/-- C2 witness: the death law applied to the wrap-around scenario state with
a concrete random stream and fuel. -/
theorem C2_death_law_witness :
    hitsSelf { initState 0 with
        snake := [⟨0, 9⟩, ⟨17, 9⟩, ⟨16, 9⟩],
        dir := Dir.left, nextDir := Dir.left, running := true } = true ∧
    ∃ g', tick (fun _ => ⟨0, 0⟩) 0 { initState 0 with
        snake := [⟨0, 9⟩, ⟨17, 9⟩, ⟨16, 9⟩],
        dir := Dir.left, nextDir := Dir.left, running := true } = some g' ∧
      g'.snake = ({ initState 0 with
        snake := [⟨0, 9⟩, ⟨17, 9⟩, ⟨16, 9⟩],
        dir := Dir.left, nextDir := Dir.left, running := true } : GameState).snake ∧
      g'.dead = true ∧ g'.running = false :=
  ⟨by decide, C2_death_law.1 (fun _ => ⟨0, 0⟩) 0 _ (by decide)⟩

/-- C3: on a non-death tick, eating (candidate head equals food) grows the
snake by exactly one cell and the score by exactly one; otherwise the length
is unchanged, the new snake being the candidate head prepended and the last
cell dropped. -/
theorem C3_growth_law (rng : Nat → Cell) (fuel : Nat) (g g' : GameState)
    (hmove : hitsSelf g = false) (htick : tick rng fuel g = some g') :
    (same (nextHead g) g.food = true →
      g'.snake.length = g.snake.length + 1 ∧ g'.score = g.score + 1) ∧
    (same (nextHead g) g.food = false →
      g'.snake.length = g.snake.length ∧ g'.score = g.score ∧
      g'.snake = (nextHead g :: g.snake).dropLast) := by
  simp only [tick, hmove, Bool.false_eq_true, if_false] at htick
  constructor
  · intro hate
    rw [if_pos hate] at htick
    cases hsp : spawnFood rng (nextHead g :: g.snake) fuel with
    | none => rw [hsp] at htick; cases htick
    | some f =>
        rw [hsp] at htick
        cases htick
        simp
  · intro hne
    rw [if_neg (by simp [hne])] at htick
    cases htick
    refine ⟨?_, rfl, rfl⟩
    simp [List.length_dropLast]

/-- C3 witness: one tick from the initial state (head moves to `(10,9)`,
no food at `(10,9)`), keeping length 3 and score 0. -/
theorem C3_growth_law_witness :
    ({ initState 0 with
        snake := [⟨10, 9⟩, ⟨9, 9⟩, ⟨8, 9⟩] } : GameState).snake.length
      = (initState 0).snake.length ∧
    ({ initState 0 with
        snake := [⟨10, 9⟩, ⟨9, 9⟩, ⟨8, 9⟩] } : GameState).score
      = (initState 0).score := by
  have h := (C3_growth_law (fun _ => ⟨0, 0⟩) 0 (initState 0)
      { initState 0 with snake := [⟨10, 9⟩, ⟨9, 9⟩, ⟨8, 9⟩] }
      (by decide) (by decide)).2 (by decide)
  exact ⟨h.1, h.2.1⟩

/-- C5: any successful `spawnFood` returns a cell off the given snake; the
initial food is off the initial snake; and every command of the state machine
(tick, restart, start, pause toggle, direction change) preserves the at-rest
invariant that the food is on no snake cell. -/
theorem C5_food_invariant :
    (∀ (rng : Nat → Cell) (s : List Cell) (fuel : Nat) (f : Cell),
      spawnFood rng s fuel = some f → s.any (fun c => same c f) = false) ∧
    (∀ b, foodOk (initState b)) ∧
    (∀ rng fuel g g', foodOk g → tick rng fuel g = some g' → foodOk g') ∧
    (∀ rng fuel g g', restart rng fuel g = some g' → foodOk g') ∧
    (∀ g, foodOk g → foodOk (startGame g)) ∧
    (∀ g, foodOk g → foodOk (togglePause g)) ∧
    (∀ r g, foodOk g → foodOk (setNextDirection r g)) := by
  refine ⟨fun rng s fuel f h => spawnFood_off_snake h, fun b => rfl,
    ?_, ?_, fun g h => h, ?_, fun r g h => h⟩
  · intro rng fuel g g' hfood htick
    simp only [tick] at htick
    by_cases hhit : hitsSelf g = true
    · rw [if_pos hhit] at htick
      cases htick
      exact hfood
    · rw [if_neg hhit] at htick
      by_cases hate : same (nextHead g) g.food = true
      · rw [if_pos hate] at htick
        cases hsp : spawnFood rng (nextHead g :: g.snake) fuel with
        | none => rw [hsp] at htick; cases htick
        | some f =>
            rw [hsp] at htick
            cases htick
            exact spawnFood_off_snake hsp
      · rw [if_neg hate] at htick
        cases htick
        show ((nextHead g :: g.snake).dropLast).any (fun c => same c g.food) = false
        apply dropLast_any_false
        simp only [List.any_cons, Bool.or_eq_false_iff]
        exact ⟨Bool.eq_false_iff.mpr hate, hfood⟩
  · intro rng fuel g g' hres
    simp only [restart] at hres
    cases hsp : spawnFood rng [⟨9, 9⟩, ⟨8, 9⟩, ⟨7, 9⟩] fuel with
    | none => rw [hsp] at hres; cases hres
    | some f =>
        rw [hsp] at hres
        cases hres
        exact spawnFood_off_snake hsp
  · intro g h
    unfold togglePause
    split
    · exact h
    · exact h

/-- C5 witness: a concrete respawn (stream that first proposes a snake cell,
then a free cell) lands off the snake, and a concrete non-eating tick from the
initial state preserves the invariant. -/
theorem C5_food_invariant_witness :
    ([⟨9, 9⟩, ⟨8, 9⟩] : List Cell).any
      (fun c => same c (⟨0, 0⟩ : Cell)) = false ∧
    foodOk { initState 0 with snake := [⟨10, 9⟩, ⟨9, 9⟩, ⟨8, 9⟩] } :=
  ⟨C5_food_invariant.1 (fun i => if i = 0 then ⟨9, 9⟩ else ⟨0, 0⟩)
      [⟨9, 9⟩, ⟨8, 9⟩] 2 ⟨0, 0⟩ (by decide),
    C5_food_invariant.2.2.1 (fun _ => ⟨0, 0⟩) 0 (initState 0)
      { initState 0 with snake := [⟨10, 9⟩, ⟨9, 9⟩, ⟨8, 9⟩] }
      (by decide) (by decide)⟩

/-- C6: `restart()` from any state resets the snake to the 3-cell start, both
directions to right, score to 0, all lifecycle flags to false (Idle), and
respawns the food off the fresh snake. -/
theorem C6_restart_resets (rng : Nat → Cell) (fuel : Nat) (g g' : GameState)
    (h : restart rng fuel g = some g') :
    g'.snake = [⟨9, 9⟩, ⟨8, 9⟩, ⟨7, 9⟩] ∧
    g'.dir = Dir.right ∧ g'.nextDir = Dir.right ∧
    g'.score = 0 ∧ g'.dead = false ∧ g'.paused = false ∧ g'.running = false ∧
    foodOk g' := by
  simp only [restart] at h
  cases hsp : spawnFood rng [⟨9, 9⟩, ⟨8, 9⟩, ⟨7, 9⟩] fuel with
  | none => rw [hsp] at h; cases h
  | some f =>
      rw [hsp] at h
      cases h
      exact ⟨rfl, rfl, rfl, rfl, rfl, rfl, rfl, spawnFood_off_snake hsp⟩

/-- C6 witness: restart from a scrambled mid-game state with a concrete
stream whose first sample is free; the result is the reset state with food
at `(0,0)` and the old best score kept. -/
theorem C6_restart_resets_witness :
    ({ initState 7 with food := ⟨0, 0⟩ } : GameState).snake
      = [⟨9, 9⟩, ⟨8, 9⟩, ⟨7, 9⟩] ∧
    ({ initState 7 with food := ⟨0, 0⟩ } : GameState).score = 0 ∧
    foodOk { initState 7 with food := ⟨0, 0⟩ } := by
  have h := C6_restart_resets (fun _ => ⟨0, 0⟩) 1
    { initState 7 with
        snake := [⟨3, 3⟩, ⟨3, 4⟩], dir := Dir.up, nextDir := Dir.down,
        score := 12, running := true, paused := true }
    { initState 7 with food := ⟨0, 0⟩ } (by decide)
  exact ⟨h.1, h.2.2.2.1, h.2.2.2.2.2.2.2⟩

/-- C7: the best score changes only at the moment of death, where it becomes
`max(best, score)`; every other command (start, pause toggle, direction
change, restart) and every non-death tick leave it unchanged, so it is
non-decreasing across any sequence of transitions. -/
theorem C7_best_score :
    (∀ g, (startGame g).best = g.best) ∧
    (∀ g, (togglePause g).best = g.best) ∧
    (∀ r g, (setNextDirection r g).best = g.best) ∧
    (∀ rng fuel g g', restart rng fuel g = some g' → g'.best = g.best) ∧
    (∀ rng fuel g g', tick rng fuel g = some g' →
      (hitsSelf g = true → g'.best = max g.best g.score) ∧
      (hitsSelf g = false → g'.best = g.best) ∧
      g.best ≤ g'.best) := by
  refine ⟨fun g => rfl, ?_, fun r g => rfl, ?_, ?_⟩
  · intro g
    unfold togglePause
    split <;> rfl
  · intro rng fuel g g' hres
    simp only [restart] at hres
    cases hsp : spawnFood rng [⟨9, 9⟩, ⟨8, 9⟩, ⟨7, 9⟩] fuel with
    | none => rw [hsp] at hres; cases hres
    | some f => rw [hsp] at hres; cases hres; rfl
  · intro rng fuel g g' htick
    simp only [tick] at htick
    by_cases hhit : hitsSelf g = true
    · rw [if_pos hhit] at htick
      cases htick
      have hbest : (die { g with dir := g.nextDir }).best = max g.best g.score := by
        simp only [die, Nat.max_def]
        split_ifs <;> omega
      refine ⟨fun _ => hbest, fun hfalse => absurd hhit (by simp [hfalse]), ?_⟩
      rw [hbest]
      exact Nat.le_max_left _ _
    · rw [if_neg hhit] at htick
      have hne : hitsSelf g = false := Bool.eq_false_iff.mpr hhit
      by_cases hate : same (nextHead g) g.food = true
      · rw [if_pos hate] at htick
        cases hsp : spawnFood rng (nextHead g :: g.snake) fuel with
        | none => rw [hsp] at htick; cases htick
        | some f =>
            rw [hsp] at htick
            cases htick
            exact ⟨fun h => absurd h (by simp [hne]), fun _ => rfl, Nat.le_refl _⟩
      · rw [if_neg hate] at htick
        cases htick
        exact ⟨fun h => absurd h (by simp [hne]), fun _ => rfl, Nat.le_refl _⟩

/-- C7 witness: a death tick from a coiled state with score 2 and best 1
raises the best to 2, and a plain tick from the initial state keeps best 0. -/
theorem C7_best_score_witness :
    ({ initState 0 with
        snake := [⟨10, 9⟩, ⟨9, 9⟩, ⟨8, 9⟩] } : GameState).best
      = (initState 0).best := by
  have h := C7_best_score.2.2.2.2 (fun _ => ⟨0, 0⟩) 0 (initState 0)
    { initState 0 with snake := [⟨10, 9⟩, ⟨9, 9⟩, ⟨8, 9⟩] } (by decide)
  exact h.2.1 (by decide)

/-- C8 counterexample: going from score 29 to score 30 crosses a
multiple-of-5 boundary, yet the tick period does not change (it is pinned at
the 55 ms floor), refuting "the period changes exactly when score crosses a
multiple-of-5 boundary". -/
theorem C8_counterexample :
    (30 : Nat) % 5 = 0 ∧ (29 : Nat) / 5 ≠ (30 : Nat) / 5 ∧
    tickMs 29 = tickMs 30 ∧ tickMs 30 = 55 := by
  decide

/-- C8 (amended): the tick period is `max(55, floor(1000 / speed))` with
`speed = 9 + floor(score / 5) * 2`; the period can change only when the score
crosses a multiple-of-5 boundary (scores with equal `score / 5` share the
period), and from score 25 on it is pinned at 55, so not every boundary
crossing changes it. -/
theorem C8_tick_period :
    (∀ s : Nat, speed s = 9 + s / 5 * 2 ∧
      tickMs s = max 55 (1000 / (9 + s / 5 * 2))) ∧
    (∀ s t : Nat, s / 5 = t / 5 → tickMs s = tickMs t) ∧
    (∀ s : Nat, 25 ≤ s → tickMs s = 55) := by
  refine ⟨fun s => ⟨rfl, rfl⟩, ?_, ?_⟩
  · intro s t h
    simp only [tickMs, speed, h]
  · intro s h
    have h5 : 5 ≤ s / 5 := Nat.le_div_iff_mul_le (by norm_num) |>.mpr h
    have hsp : 19 ≤ speed s := by
      simp only [speed]
      omega
    have hdiv : 1000 / speed s ≤ 1000 / 19 :=
      Nat.div_le_div_left hsp (by norm_num)
    simp only [tickMs]
    omega

/-- C8 witness: scores 21 and 24 share `score / 5 = 4` and hence the same
period, and score 100 is pinned at the 55 ms floor. -/
theorem C8_tick_period_witness :
    tickMs 21 = tickMs 24 ∧ tickMs 100 = 55 :=
  ⟨C8_tick_period.2.1 21 24 (by decide), C8_tick_period.2.2 100 (by decide)⟩

/-- C9: the constraint "dead implies neither running nor paused" holds in the
initial state and is preserved by every command: start, pause toggle,
direction change, restart and the tick. -/
theorem C9_flags_invariant :
    (∀ b, flagsOk (initState b)) ∧
    (∀ g, flagsOk (startGame g)) ∧
    (∀ g, flagsOk g → flagsOk (togglePause g)) ∧
    (∀ r g, flagsOk g → flagsOk (setNextDirection r g)) ∧
    (∀ rng fuel g g', restart rng fuel g = some g' → flagsOk g') ∧
    (∀ rng fuel g g', flagsOk g → tick rng fuel g = some g' → flagsOk g') := by
  refine ⟨?_, ?_, ?_, ?_, ?_, ?_⟩
  · intro b h
    cases h
  · intro g h
    cases h
  · intro g h
    unfold togglePause
    by_cases hc : (!g.running || g.dead) = true
    · rw [if_pos hc]
      exact h
    · rw [if_neg hc]
      intro hd
      have hdg : g.dead = true := hd
      rw [hdg, Bool.or_true] at hc
      exact absurd rfl hc
  · intro r g h
    exact h
  · intro rng fuel g g' hres
    simp only [restart] at hres
    cases hsp : spawnFood rng [⟨9, 9⟩, ⟨8, 9⟩, ⟨7, 9⟩] fuel with
    | none => rw [hsp] at hres; cases hres
    | some f => rw [hsp] at hres; cases hres; intro h; cases h
  · intro rng fuel g g' hflags htick
    simp only [tick] at htick
    by_cases hhit : hitsSelf g = true
    · rw [if_pos hhit] at htick
      cases htick
      exact fun _ => ⟨rfl, rfl⟩
    · rw [if_neg hhit] at htick
      by_cases hate : same (nextHead g) g.food = true
      · rw [if_pos hate] at htick
        cases hsp : spawnFood rng (nextHead g :: g.snake) fuel with
        | none => rw [hsp] at htick; cases htick
        | some f => rw [hsp] at htick; cases htick; exact hflags
      · rw [if_neg hate] at htick
        cases htick
        exact hflags

/-- C9 witness: the invariant after a pause toggle and after a concrete
non-death tick from the started initial state. -/
theorem C9_flags_invariant_witness :
    flagsOk (togglePause (initState 0)) ∧
    flagsOk { initState 0 with snake := [⟨10, 9⟩, ⟨9, 9⟩, ⟨8, 9⟩] } :=
  ⟨C9_flags_invariant.2.2.1 (initState 0) (by decide),
    C9_flags_invariant.2.2.2.2.2 (fun _ => ⟨0, 0⟩) 0 (initState 0)
      { initState 0 with snake := [⟨10, 9⟩, ⟨9, 9⟩, ⟨8, 9⟩] }
      (by decide) (by decide)⟩

/-- C10: one wrapped step from any in-grid cell never stays put, in any
direction; hence the collision scan never reports the pre-move head itself,
and a tick on a length-1 snake never enters the death branch. -/
theorem C10_step_never_stationary :
    (∀ c d, inGrid c → stepCell c d ≠ c) ∧
    (∀ g c, inGrid c → g.snake = [c] → hitsSelf g = false) ∧
    (∀ rng fuel g c g', inGrid c → g.snake = [c] →
      tick rng fuel g = some g' → g'.dead = g.dead) := by
  have hstep : ∀ c d, inGrid c → stepCell c d ≠ c := by
    intro c d hc h
    obtain ⟨hx0, hx1, hy0, hy1⟩ := hc
    have hx := congrArg Cell.x h
    have hy := congrArg Cell.y h
    cases d <;>
      (simp only [stepCell, dirVec, wrap, GRID] at hx hy;
        split_ifs at hx hy <;> omega)
  have hmiss : ∀ g c, inGrid c → g.snake = [c] → hitsSelf g = false := by
    intro g c hc hs
    simp only [hitsSelf, nextHead, hs, List.headD_cons, List.any_cons,
      List.any_nil, Bool.or_false]
    exact same_false_iff.mpr (Ne.symm (hstep c g.nextDir hc))
  refine ⟨hstep, hmiss, ?_⟩
  intro rng fuel g c g' hc hs htick
  have hne : hitsSelf g = false := hmiss g c hc hs
  simp only [tick, hne, Bool.false_eq_true, if_false] at htick
  by_cases hate : same (nextHead g) g.food = true
  · rw [if_pos hate] at htick
    cases hsp : spawnFood rng (nextHead g :: g.snake) fuel with
    | none => rw [hsp] at htick; cases htick
    | some f => rw [hsp] at htick; cases htick; rfl
  · rw [if_neg hate] at htick
    cases htick
    rfl

/-- C10 witness: the corner cell `(0,0)` moving up wraps to `(0,17) ≠ (0,0)`,
and a tick on the singleton snake `[(0,0)]` does not die. -/
theorem C10_step_never_stationary_witness :
    stepCell ⟨0, 0⟩ Dir.up ≠ (⟨0, 0⟩ : Cell) ∧
    hitsSelf { initState 0 with snake := [⟨0, 0⟩], nextDir := Dir.up } = false :=
  ⟨C10_step_never_stationary.1 ⟨0, 0⟩ Dir.up (by decide),
    C10_step_never_stationary.2.1
      { initState 0 with snake := [⟨0, 0⟩], nextDir := Dir.up }
      ⟨0, 0⟩ (by decide) rfl⟩

end Snake
